import Mathlib

/-!
Verification of the trend-scrapper pipeline scripts.

This file shallowly embeds the core pipeline code of the repository:
the YouTube-URL video-id extractors, the Gemini-based and synchronous
transcript retrievers with their retry loops, the OpenAI analyzers with
their prompt selection and error sentinel, the Google-Trends query
generation and parsing, the report assembly of both Streamlit pipelines,
and a small cooperative-scheduler model of the semaphore + gather
worker pool.  External network calls are modelled by outcome oracles.
-/

/-- The single-quote character, written by code point to keep sources plain. -/
def sqC : Char := Char.ofNat 39

/-- The newline character. -/
def nlChar : Char := Char.ofNat 10

/-- One-character string holding a single quote. -/
def sqS : String := String.singleton sqC

/-- Python-style slice `s[:n]` on a string (by characters). -/
def strTake (n : Nat) (s : String) : String := String.mk (s.toList.take n)

/-- Python `s.replace(chr(10), " ")`: normalize embedded newlines to spaces. -/
def replaceNL (s : String) : String :=
  String.mk (s.toList.map (fun c => if c = nlChar then ' ' else c))

/-- If `lit` is a prefix of `s`, return the remainder of `s` after it. -/
def dropLit : List Char → List Char → Option (List Char)
  | [], s => some s
  | _ :: _, [] => none
  | l :: ls, c :: cs => if c = l then dropLit ls cs else none

/-- Model of `re.search` for a pattern `lit([^bad]+)`: scan left to right for the first
occurrence of the literal `lit` followed by at least one character not in
`bad`; capture the maximal run of such characters.  This is the observable
behaviour of the three YouTube URL regexes, whose optional scheme and
`www.` groups affect neither matchability nor the captured group. -/
def searchCap (lit : List Char) (bad : List Char) : List Char → Option (List Char)
  | [] => none
  | c :: rest =>
    match dropLit lit (c :: rest) with
    | some rem =>
      let cap := rem.takeWhile (fun x => !(bad.contains x))
      if cap = [] then searchCap lit bad rest else some cap
    | none => searchCap lit bad rest

/-- Literal core of the canonical watch-URL pattern. -/
def watchLit : List Char := "youtube.com/watch?v=".toList

/-- Literal core of the short-link pattern. -/
def shortLit : List Char := "youtu.be/".toList

/-- Literal core of the embed-URL pattern. -/
def embedLit : List Char := "youtube.com/embed/".toList

/-- Error message of `extract_video_id` in `main.py` / `Streamlit_yt.py`:
it names the offending URL. -/
def invalidUrlMsg (url : String) : String :=
  "Invalid or unsupported YouTube URL format: " ++ url

/-- Function `extract_video_id` of `Youtube -- Ifty/main.py` (also `Streamlit_yt.py`
and `Streamlit/youtube_analyzer.py`, identical): try the watch, short and
embed patterns in order with `re.search`; raise a `ValueError` naming the
URL when none matches.  Raising is modelled as `Except.error`. -/
def extract_video_id (url : String) : Except String String :=
  match searchCap watchLit ['&'] url.toList with
  | some cap => .ok (String.mk cap)
  | none =>
    match searchCap shortLit ['?', '&'] url.toList with
    | some cap => .ok (String.mk cap)
    | none =>
      match searchCap embedLit ['?', '&'] url.toList with
      | some cap => .ok (String.mk cap)
      | none => .error (invalidUrlMsg url)

/-- Strip an optional `https://` or `http://` scheme at the start
(the regex group is optional, so failure to match consumes nothing). -/
def stripScheme (s : List Char) : List Char :=
  match dropLit "https://".toList s with
  | some r => r
  | none =>
    match dropLit "http://".toList s with
    | some r => r
    | none => s

/-- Strip an optional leading `www.`. -/
def stripWww (s : List Char) : List Char :=
  match dropLit "www.".toList s with
  | some r => r
  | none => s

/-- Model of `re.match` (anchored at the start) for `(scheme)?(www.)?lit([^bad]+)`.
`www` says whether the pattern has the optional `www.` group. -/
def anchoredCap (www : Bool) (lit bad : List Char) (s : List Char) : Option (List Char) :=
  let s1 := stripScheme s
  let s2 := if www then stripWww s1 else s1
  match dropLit lit s2 with
  | some rem =>
    let cap := rem.takeWhile (fun x => !(bad.contains x))
    if cap = [] then none else some cap
  | none => none

namespace YtTranscript

/-- Function `extract_video_id` of `Youtube -- Ifty/yt_transcript.py`: same three
patterns but matched with `re.match` (anchored), and a fixed error message
that does not mention the URL. -/
def extract_video_id (url : String) : Except String String :=
  match anchoredCap true watchLit ['&'] url.toList with
  | some cap => .ok (String.mk cap)
  | none =>
    match anchoredCap false shortLit ['?', '&'] url.toList with
    | some cap => .ok (String.mk cap)
    | none =>
      match anchoredCap true embedLit ['?', '&'] url.toList with
      | some cap => .ok (String.mk cap)
      | none => .error "Invalid YouTube URL."

end YtTranscript

/-- Whether `sub` occurs as a contiguous segment of `big`. -/
def hasSeg (sub : List Char) : List Char → Bool
  | [] => sub.isEmpty
  | c :: rest => (dropLit sub (c :: rest)).isSome || hasSeg sub rest

example : extract_video_id "https://www.youtube.com/watch?v=dQw4w9WgXcQ" = .ok "dQw4w9WgXcQ" := by rfl
example : extract_video_id "https://youtu.be/abc12?t=9" = .ok "abc12" := by rfl
example : extract_video_id "youtube.com/embed/xyz" = .ok "xyz" := by rfl
example : extract_video_id "not-a-url" = .error (invalidUrlMsg "not-a-url") := by rfl
example : YtTranscript.extract_video_id "https://www.youtube.com/watch?v=dQw4w9WgXcQ&l=1" = .ok "dQw4w9WgXcQ" := by rfl
example : YtTranscript.extract_video_id "not-a-url" = .error "Invalid YouTube URL." := by rfl

/-- One trending item as selected by the pipelines: a title and a link. -/
structure TrendItem where
  title : String
  link : String
deriving DecidableEq

/-- Status field of a retrieval result dict (`"Success"` / `"Failed"`). -/
inductive RStatus where
  | success
  | failed
deriving DecidableEq

/-- The dict returned by the transcript retrievers:
`{title, video_url, video_id, status, transcript?, error?}`.
An absent key is `none`. -/
structure RetrievalResult where
  title : String
  video_url : String
  video_id : String
  status : RStatus
  transcript : Option String
  error : Option String
deriving DecidableEq

/-- The structured analysis object `{context, summary, category}`. -/
structure AnalysisResult where
  context : String
  summary : List String
  category : String
deriving DecidableEq

/-- The fixed sentinel returned by every analyzer on any transport or
parse failure. -/
def errorSentinel : AnalysisResult :=
  { context := "Error during analysis."
  , summary := ["Could not generate summary points."]
  , category := "Error" }

/-- Outcome oracle for one OpenAI chat/parse round trip: either the parsed
structured object, or an exception message (transport or JSON parse). -/
inductive LLMOutcome where
  | ok (a : AnalysisResult)
  | fail (msg : String)
deriving DecidableEq

/-- The `try`/`except` around the OpenAI call: a parsed object comes back
as is; any exception is caught and the sentinel is returned instead. -/
def analysisOf : LLMOutcome → AnalysisResult
  | .ok a => a
  | .fail _ => errorSentinel

/-- Extraction wrapped in the inner handler of the retrievers:
`try ... except ValueError: video_id = "unknown"`. -/
def videoIdOrUnknown (url : String) : String :=
  match extract_video_id url with
  | .ok v => v
  | .error _ => "unknown"

/-- Outcome oracle for one `model.generate_content_async` call of the
Gemini retriever. -/
inductive GenOutcome where
  | rateLimited
  | exn (msg : String)
  | ok (text : String)

/-- One complete run of a retriever: the returned dict together with the
sequence of `asyncio.sleep` / `time.sleep` durations it performed. -/
structure RetrieverRun where
  result : RetrievalResult
  sleeps : List Nat
deriving DecidableEq

/-- Constant `max_retries` of `fetch_transcript_with_gemini`. -/
def geminiMaxRetries : Nat := 3

/-- Constant `base_delay` of `fetch_transcript_with_gemini`. -/
def geminiBaseDelay : Nat := 5

/-- The fall-through result after the Gemini retry loop exhausts all
attempts on rate limits. -/
def geminiRateExhausted (title url : String) : RetrievalResult :=
  { title := title, video_url := url, video_id := videoIdOrUnknown url
  , status := .failed, transcript := none
  , error := "All retry attempts failed due to rate limiting." }

/-- The retry loop of `fetch_transcript_with_gemini`, from attempt number
`attempt` with `fuel` attempts remaining (`fuel = max_retries - attempt`).
A successful generation normalizes newlines, then calls
`extract_video_id`; a `ValueError` there is caught by the generic
`except Exception` handler, so it yields a Failed dict carrying the
extraction message.  A rate limit sleeps `base_delay * 2 ^ attempt` and
retries, unless this was the final attempt.  Any other exception returns
a Failed dict at once. -/
def fetchGeminiFrom (title url : String) (out : Nat → GenOutcome) :
    Nat → Nat → RetrieverRun
  | _, 0 => { result := geminiRateExhausted title url, sleeps := [] }
  | attempt, fuel + 1 =>
    match out attempt with
    | .ok t =>
      let txt := replaceNL t
      match extract_video_id url with
      | .ok vid =>
        { result := { title := title, video_url := url, video_id := vid
                    , status := .success, transcript := some txt, error := none }
        , sleeps := [] }
      | .error e =>
        { result := { title := title, video_url := url
                    , video_id := videoIdOrUnknown url
                    , status := .failed, transcript := none, error := some e }
        , sleeps := [] }
    | .exn e =>
      { result := { title := title, video_url := url
                  , video_id := videoIdOrUnknown url
                  , status := .failed, transcript := none, error := some e }
      , sleeps := [] }
    | .rateLimited =>
      if fuel = 0 then { result := geminiRateExhausted title url, sleeps := [] }
      else
        let rest := fetchGeminiFrom title url out (attempt + 1) fuel
        { result := rest.result, sleeps := geminiBaseDelay * 2 ^ attempt :: rest.sleeps }

/-- Function `fetch_transcript_with_gemini` of `Youtube -- Ifty/main.py` and
`Streamlit/youtube_analyzer.py` (identical code), with the per-attempt
Gemini outcomes supplied by the oracle `out`. -/
def fetch_transcript_with_gemini (title url : String) (out : Nat → GenOutcome) :
    RetrieverRun :=
  fetchGeminiFrom title url out 0 geminiMaxRetries

/-- The retry loop of `fetch_transcript_for_video` in
`Youtube -- Ifty/Streamlit_yt.py`, from attempt `attempt` with `fuel`
attempts remaining and `last` the last exception text seen.  Each attempt
first runs `extract_video_id` (whose error is also just an exception
here), then the transcript call (oracle `out`, giving the caption
segments); on success the segment texts are joined with spaces and
newlines normalized.  Any exception on a non-final attempt sleeps a fixed
2 seconds; exhaustion returns a Failed dict with `video_id = "unknown"`
naming the last exception. -/
def fetchSyncFrom (title url : String) (out : Nat → Except String (List String)) :
    Nat → Nat → String → RetrieverRun
  | _, 0, last =>
    { result := { title := title, video_url := url, video_id := "unknown"
                , status := .failed, transcript := none
                , error := some ("All attempts failed. Last error: " ++ last) }
    , sleeps := [] }
  | attempt, fuel + 1, _ =>
    match (match extract_video_id url with
           | .error e => Except.error e
           | .ok vid => (out attempt).map (fun segs => (vid, segs))) with
    | .ok (vid, segs) =>
      { result := { title := title, video_url := url, video_id := vid
                  , status := .success
                  , transcript := some (replaceNL (String.intercalate " " segs))
                  , error := none }
      , sleeps := [] }
    | .error e =>
      if fuel = 0 then
        { result := { title := title, video_url := url, video_id := "unknown"
                    , status := .failed, transcript := none
                    , error := some ("All attempts failed. Last error: " ++ e) }
        , sleeps := [] }
      else
        let rest := fetchSyncFrom title url out (attempt + 1) fuel e
        { result := rest.result, sleeps := 2 :: rest.sleeps }

/-- Constant `max_retries` of `fetch_transcript_for_video` (the loop runs
`max_retries + 1` times). -/
def syncMaxRetries : Nat := 3

/-- Function `fetch_transcript_for_video` of `Youtube -- Ifty/Streamlit_yt.py`. -/
def fetch_transcript_for_video (title url : String)
    (out : Nat → Except String (List String)) : RetrieverRun :=
  fetchSyncFrom title url out 0 (syncMaxRetries + 1) ""

/-- The prompt the YouTube analyzer builds: either the content prompt over
a (possibly truncated) transcript, or the title-only inference prompt.
The English prompt text is opaque here; the constructor records which
path was taken and the payload interpolated into it. -/
inductive Prompt where
  | contentPrompt (title : String) (body : String)
  | titleOnly (title : String)
deriving DecidableEq

/-- Prompt selection of `analyze_transcript_with_openai`
(`Youtube -- Ifty/main.py`, `Streamlit_yt.py`,
`Streamlit/youtube_analyzer.py`, identical logic): the content path is
taken iff `status == "Success"` and the `transcript` value is truthy
(present and non-empty); the content is sliced to `[:15000]`. -/
def buildPrompt (r : RetrievalResult) : Prompt :=
  if r.status = .success ∧ r.transcript.getD "" ≠ "" then
    .contentPrompt r.title (strTake 15000 (r.transcript.getD ""))
  else
    .titleOnly r.title

/-- Function `analyze_transcript_with_openai`: builds the prompt, performs the
OpenAI call and JSON parse (oracle `llm`), and catches any exception into
the sentinel.  The prompt is returned alongside so that specifications
can talk about which path was invoked. -/
def analyze_transcript_with_openai (r : RetrievalResult) (llm : LLMOutcome) :
    Prompt × AnalysisResult :=
  (buildPrompt r, analysisOf llm)

/-- Python `s.split("=")` on character lists: split at every `=`,
keeping empty segments.  The result is never empty. -/
def splitEqL : List Char → List (List Char)
  | [] => [[]]
  | c :: cs =>
    if c = '=' then [] :: splitEqL cs
    else
      match splitEqL cs with
      | [] => [[c]]
      | seg :: segs => (c :: seg) :: segs

/-- Python `s.strip(chr(39))` on character lists: remove every leading and
every trailing single-quote character. -/
def stripQ (l : List Char) : List Char :=
  (((l.dropWhile (fun c => c == sqC)).reverse.dropWhile (fun c => c == sqC))).reverse

/-- The generated query line for one joined keyword string:
`query=...` with the dots wrapped in literal single quotes. -/
def queryLine (joined : String) : String :=
  "query=" ++ sqS ++ joined ++ sqS

/-- Function `generate_trend_queries` of `Streamlit/google_analyzer.py`: for each
trend, skip it when it has no keywords, otherwise join its first five
keywords with `" OR "` and wrap them in a single-quoted `query=` line. -/
def generate_trend_queries (trends : List (List String)) : List String :=
  trends.filterMap (fun keywords =>
    if keywords.isEmpty then none
    else some (queryLine (String.intercalate " OR " (keywords.take 5))))

/-- The parse at the top of `search_and_scrape_task`:
`query.split("=")[1].strip(chr(39))`. -/
def parseActualQuery (q : String) : String :=
  String.mk (stripQ ((splitEqL q.toList).getD 1 []))

/-- Outcome oracle for one `app.search` call of the Firecrawl scraper:
an exception, or a result whose `data` list carries an optional
`markdown` body per entry. -/
inductive SearchOutcome where
  | exn (msg : String)
  | ok (data : List (Option String))

/-- One scraped record `{trend_query, scraped_content}`. -/
structure ScrapedItem where
  trend_query : String
  scraped_content : String
deriving DecidableEq

/-- Function `search_and_scrape_task` of `Streamlit/google_analyzer.py`: parse the
actual query out of the generated line, run the search (oracle), and
return a record only when the result has a first data entry with a
truthy `markdown`; every failure path returns `None`. -/
def search_and_scrape_task (out : SearchOutcome) (query : String) :
    Option ScrapedItem :=
  let actual_query := parseActualQuery query
  match out with
  | .exn _ => none
  | .ok data =>
    match data.head? with
    | some (some md) => if md = "" then none else some ⟨actual_query, md⟩
    | _ => none

/-- The prompt of the Google analyzer: the trend query and the scraped
content sliced to `[:15000]`. -/
structure GPrompt where
  trend_query : String
  body : String
deriving DecidableEq

/-- Prompt building inside `analyze_scraped_content`. -/
def gBuildPrompt (item : ScrapedItem) : GPrompt :=
  ⟨item.trend_query, strTake 15000 item.scraped_content⟩

/-- Function `analyze_scraped_content` of `Streamlit/google_analyzer.py`: build the
content prompt, call OpenAI and parse (oracle), catching any exception
into the sentinel. -/
def analyze_scraped_content (item : ScrapedItem) (llm : LLMOutcome) :
    GPrompt × AnalysisResult :=
  (gBuildPrompt item, analysisOf llm)

/-- One entry of the Google pipeline final report. -/
structure GReportItem where
  trend_query : String
  scraped_content : String
  llm_analysis : AnalysisResult
deriving DecidableEq

/-- The post-fetch body of `run_google_analysis_pipeline`
(`Streamlit/google_analyzer.py`, lines 93-123): generate the queries,
scrape them all (per-query oracle `scr`), filter out the `None` results,
abort when nothing survived, analyze the surviving items (per-item
oracle `llm`), and zip scraped items with their analyses. -/
def run_google_analysis_pipeline (trends : List (List String))
    (scr : Nat → SearchOutcome) (llm : Nat → LLMOutcome) : List GReportItem :=
  let all_queries := generate_trend_queries trends
  if all_queries.isEmpty then []
  else
    let scraped_results :=
      all_queries.enum.map (fun p => search_and_scrape_task (scr p.1) p.2)
    let kept := scraped_results.filterMap id
    if kept.isEmpty then []
    else
      let llm_analyses :=
        kept.enum.map (fun p => (analyze_scraped_content p.2 (llm p.1)).2)
      List.zipWith
        (fun item a => { trend_query := item.trend_query
                       , scraped_content := item.scraped_content
                       , llm_analysis := a })
        kept llm_analyses

/-- One entry of the YouTube pipeline final report: the retrieval dict
with the analysis attached under `llm_analysis`. -/
structure YtReportItem where
  retrieval : RetrievalResult
  llm_analysis : AnalysisResult
deriving DecidableEq

/-- The post-fetch body of `run_youtube_analysis_pipeline`
(`Streamlit/youtube_analyzer.py`, lines 142-165): gather all transcript
fetches (per-video outcome oracle `gem`), then gather all analyses
(per-item oracle `llm`), then attach `llm_analyses[i]` to
`transcript_results[i]`.  The two `gather`s are modelled by `map`, which
the worker-pool theorem justifies (output `i` is the task built from
input `i`). -/
def run_youtube_analysis_pipeline (videos : List TrendItem)
    (gem : Nat → Nat → GenOutcome) (llm : Nat → LLMOutcome) : List YtReportItem :=
  let transcript_results :=
    videos.enum.map (fun p => (fetch_transcript_with_gemini p.2.title p.2.link (gem p.1)).result)
  let llm_analyses :=
    transcript_results.enum.map (fun p => (analyze_transcript_with_openai p.2 (llm p.1)).2)
  List.zipWith (fun r a => { retrieval := r, llm_analysis := a })
    transcript_results llm_analyses

example :
    parseActualQuery (queryLine "abc") = "abc" := by rfl
example :
    generate_trend_queries [["a", "b"], [], ["c"]]
      = [queryLine "a OR b", queryLine "c"] := by rfl
example :
    parseActualQuery (queryLine (String.mk [sqC, 'a'])) = "a" := by rfl

/-- State of one task created for the pool: created but not yet past
the semaphore, holding the semaphore and executing, or finished with a
result. -/
inductive TaskSt (β : Type u) where
  | pending
  | running
  | done (r : β)

/-- State of one `semaphore + gather` pool invocation: one task slot per
input item (same index), and the number of free semaphore permits. -/
structure PoolState (β : Type u) where
  tasks : List (TaskSt β)
  sem : Nat

/-- An observable scheduling event of the pool: task `idx` acquires the
semaphore and starts its operation (`fin = false`), or its operation
completes (`fin = true`). -/
structure Ev where
  fin : Bool
  idx : Nat
deriving DecidableEq

/-- One cooperative scheduling step: the event loop gives control to task
`i`.  A pending task acquires the semaphore when a permit is free and
starts; a running task completes, computing `op` on its own input item
and releasing its permit; anything else is a no-op. -/
def stepPool (op : α → β) (items : List α) (s : PoolState β) (i : Nat) :
    PoolState β × List Ev :=
  match s.tasks.get? i with
  | some .pending =>
    if 0 < s.sem then
      ({ tasks := s.tasks.set i .running, sem := s.sem - 1 }, [⟨false, i⟩])
    else (s, [])
  | some .running =>
    match items.get? i with
    | some a => ({ tasks := s.tasks.set i (.done (op a)), sem := s.sem + 1 }, [⟨true, i⟩])
    | none => (s, [])
  | _ => (s, [])

/-- Run the pool under an arbitrary schedule (the order in which the event
loop happens to give control to tasks), collecting the event trace. -/
def runPool (op : α → β) (items : List α) (s : PoolState β) :
    List Nat → PoolState β × List Ev
  | [] => (s, [])
  | i :: sched =>
    let st := stepPool op items s i
    let rest := runPool op items st.1 sched
    (rest.1, st.2 ++ rest.2)

/-- The initial pool state: one pending task per item, `K` permits. -/
def initPool (K : Nat) (items : List α) : PoolState β :=
  { tasks := items.map (fun _ => .pending), sem := K }

/-- What `asyncio.gather` returns once every task is finished: the results
in task-creation order.  `none` while any task is unfinished. -/
def gatherResults : List (TaskSt β) → Option (List β)
  | [] => some []
  | .done r :: ts => (gatherResults ts).map (fun rs => r :: rs)
  | .pending :: _ => none
  | .running :: _ => none

/-- One whole `semaphore + gather` invocation over `items` with permit
count `K` under schedule `sched`: the gathered results (if the schedule
ran every task to completion) and the event trace. -/
def poolRun (K : Nat) (op : α → β) (items : List α) (sched : List Nat) :
    Option (List β) × List Ev :=
  let fin := runPool op items (initPool K items) sched
  (gatherResults fin.1.tasks, fin.2)

/-- The two pipeline stages. -/
inductive Phase where
  | retrieval
  | analysis
deriving DecidableEq

/-- The two-stage pipeline shape shared by `main`,
`run_youtube_analysis_pipeline` and `run_google_analysis_pipeline`:
one pool invocation for retrieval is awaited to completion, and only
then is the analysis pool built over its results.  The trace tags each
pool event with its stage; when the first gather never completes the
analysis stage never starts. -/
def pipelineTrace (K₁ K₂ : Nat) (retrieve : α → β) (analyze : β → γ)
    (items : List α) (s₁ s₂ : List Nat) :
    Option (List γ) × List (Phase × Ev) :=
  let r₁ := poolRun K₁ retrieve items s₁
  match r₁.1 with
  | none => (none, r₁.2.map (fun e => (Phase.retrieval, e)))
  | some mids =>
    let r₂ := poolRun K₂ analyze mids s₂
    (r₂.1, r₁.2.map (fun e => (Phase.retrieval, e))
            ++ r₂.2.map (fun e => (Phase.analysis, e)))

example :
    (poolRun 2 (fun x => x + 1) [10, 20, 30] [1, 0, 1, 2, 0, 2]).1
      = some [11, 21, 31] := by rfl
example :
    (pipelineTrace 1 1 (fun x => x + 1) (fun x => x * 2) [7] [0, 0] [0, 0]).2
      = [(Phase.retrieval, ⟨false, 0⟩), (Phase.retrieval, ⟨true, 0⟩),
         (Phase.analysis, ⟨false, 0⟩), (Phase.analysis, ⟨true, 0⟩)] := by rfl

/-- Invariant of a pool state: the task list parallels the item list, and
every finished slot holds the operation applied to its own input item. -/
def ResultsOk (op : α → β) (items : List α) (tasks : List (TaskSt β)) : Prop :=
  tasks.length = items.length ∧
  ∀ i r, tasks.get? i = some (TaskSt.done r) → ∃ a, items.get? i = some a ∧ r = op a

theorem resultsOk_init (op : α → β) (items : List α) (K : Nat) :
    ResultsOk op items (initPool K items : PoolState β).tasks := by
  constructor
  · simp [initPool]
  · intro i r h
    have h2 : (items.map (fun _ => (TaskSt.pending : TaskSt β))).get? i
        = some (TaskSt.done r) := h
    rw [List.get?_map] at h2
    cases hx : items.get? i <;> rw [hx] at h2 <;> simp at h2

theorem resultsOk_step (op : α → β) (items : List α) (s : PoolState β) (i : Nat)
    (h : ResultsOk op items s.tasks) :
    ResultsOk op items ((stepPool op items s i).1).tasks := by
  obtain ⟨hlen, hdone⟩ := h
  unfold stepPool
  cases hg : s.tasks.get? i with
  | none => exact ⟨hlen, hdone⟩
  | some t =>
    cases t with
    | pending =>
      by_cases hs : 0 < s.sem
      · simp only [hs, if_true]
        refine ⟨by simpa using hlen, ?_⟩
        intro j r hj
        rcases eq_or_ne i j with rfl | hne
        · rw [List.get?_set_eq, hg] at hj
          simp at hj
        · rw [List.get?_set_ne _ _ hne] at hj
          exact hdone j r hj
      · simp only [hs, if_false]
        exact ⟨hlen, hdone⟩
    | running =>
      cases hi : items.get? i with
      | none => exact ⟨hlen, hdone⟩
      | some a =>
        simp only []
        refine ⟨by simpa using hlen, ?_⟩
        intro j r hj
        rcases eq_or_ne i j with rfl | hne
        · rw [List.get?_set_eq, hg] at hj
          simp at hj
          exact ⟨a, hi, hj.symm⟩
        · rw [List.get?_set_ne _ _ hne] at hj
          exact hdone j r hj
    | done r0 => exact ⟨hlen, hdone⟩

theorem resultsOk_run (op : α → β) (items : List α) :
    ∀ (sched : List Nat) (s : PoolState β), ResultsOk op items s.tasks →
      ResultsOk op items ((runPool op items s sched).1).tasks := by
  intro sched
  induction sched with
  | nil => intro s h; simpa [runPool] using h
  | cons i tl ih =>
    intro s h
    simp only [runPool]
    exact ih _ (resultsOk_step op items s i h)

theorem gatherResults_spec : ∀ (ts : List (TaskSt β)) (rs : List β),
    gatherResults ts = some rs →
    rs.length = ts.length ∧
    ∀ i, i < ts.length →
      ∃ r, ts.get? i = some (TaskSt.done r) ∧ rs.get? i = some r := by
  intro ts
  induction ts with
  | nil =>
    intro rs h
    simp [gatherResults] at h
    subst h
    simp
  | cons t tl ih =>
    intro rs h
    cases t with
    | pending => simp [gatherResults] at h
    | running => simp [gatherResults] at h
    | done r =>
      simp only [gatherResults] at h
      cases hg : gatherResults tl with
      | none => rw [hg] at h; simp at h
      | some rest =>
        rw [hg] at h
        simp at h
        subst h
        obtain ⟨hlen, hval⟩ := ih rest hg
        refine ⟨by simp [hlen], ?_⟩
        intro i hi
        cases i with
        | zero => exact ⟨r, rfl, rfl⟩
        | succ n =>
          have hn : n < tl.length := by simpa using hi
          simpa using hval n hn

theorem runPool_empty_items (op : α → β) (K : Nat) :
    ∀ sched : List Nat,
      runPool op [] ({ tasks := [], sem := K } : PoolState β) sched
        = ({ tasks := [], sem := K }, []) := by
  intro sched
  induction sched with
  | nil => rfl
  | cons i tl ih => simp [runPool, stepPool, ih]

/-- C1: one worker-pool invocation (semaphore-bounded tasks gathered with
`asyncio.gather`) over `N` input items returns exactly `N` results, the
`i`-th being the operation applied to the `i`-th input, for every
schedule (i.e. regardless of completion order); and over an empty input
it returns the empty sequence with an empty event trace, so the
operation is never invoked. -/
theorem pool_gather_preserves_input_order :
    (∀ (α β : Type) (K : Nat) (op : α → β) (items : List α) (sched : List Nat)
        (results : List β),
        (poolRun K op items sched).1 = some results → results = items.map op) ∧
    (∀ (α β : Type) (K : Nat) (op : α → β) (sched : List Nat),
        poolRun K op ([] : List α) sched = ((some [] : Option (List β)), [])) := by
  constructor
  · intro α β K op items sched results h
    unfold poolRun at h
    obtain ⟨hlen, hdone⟩ :=
      resultsOk_run op items sched (initPool K items) (resultsOk_init op items K)
    obtain ⟨hrlen, hval⟩ := gatherResults_spec _ results h
    apply List.ext_get?
    intro n
    by_cases hn : n < items.length
    · have hn2 : n < ((runPool op items (initPool K items) sched).1).tasks.length := by
        rw [hlen]; exact hn
      obtain ⟨r, hts, hrs⟩ := hval n hn2
      obtain ⟨a, hia, hra⟩ := hdone n r hts
      rw [hrs, List.get?_map, hia, hra]
      rfl
    · have h1 : results.get? n = none := by
        rw [List.get?_eq_none, hrlen, hlen]; omega
      have h2 : (items.map op).get? n = none := by
        rw [List.get?_eq_none, List.length_map]; omega
      rw [h1, h2]
  · intro α β K op sched
    have h0 : (initPool K ([] : List α) : PoolState β) = { tasks := [], sem := K } := rfl
    simp [poolRun, h0, runPool_empty_items op K sched, gatherResults]

theorem pool_gather_preserves_input_order_witness :
    ([11, 21, 31] : List Nat) = List.map (fun x => x + 1) [10, 20, 30] :=
  pool_gather_preserves_input_order.1 Nat Nat 2 (fun x => x + 1) [10, 20, 30]
    [1, 0, 1, 2, 0, 2] [11, 21, 31] (by rfl)

/-- C8: in the two-stage pipeline, every retrieval-stage event (in
particular every retrieval completion) occurs strictly before every
analysis-stage event (in particular every analysis start), for all
schedules of both pools: all retrievals of the batch complete before any
analysis begins. -/
theorem pipeline_stages_strictly_sequential :
    ∀ (α β γ : Type) (K₁ K₂ : Nat) (retrieve : α → β) (analyze : β → γ)
      (items : List α) (s₁ s₂ : List Nat) (p q : Nat) (e₁ e₂ : Ev),
      (pipelineTrace K₁ K₂ retrieve analyze items s₁ s₂).2.get? p
        = some (Phase.retrieval, e₁) →
      (pipelineTrace K₁ K₂ retrieve analyze items s₁ s₂).2.get? q
        = some (Phase.analysis, e₂) →
      p < q := by
  intro α β γ K₁ K₂ f g items s₁ s₂ p q e₁ e₂ hp hq
  cases hm : (poolRun K₁ f items s₁).1 with
  | none =>
    simp only [pipelineTrace, hm] at hq
    have hmem := List.get?_mem hq
    simp [List.mem_map] at hmem
  | some mids =>
    simp only [pipelineTrace, hm] at hp hq
    have hpA : p < ((poolRun K₁ f items s₁).2.map (fun e => (Phase.retrieval, e))).length := by
      by_contra hge
      push_neg at hge
      rw [List.get?_append_right hge] at hp
      have hmem := List.get?_mem hp
      simp [List.mem_map] at hmem
    have hqA : ((poolRun K₁ f items s₁).2.map (fun e => (Phase.retrieval, e))).length ≤ q := by
      by_contra hlt
      push_neg at hlt
      rw [List.get?_append hlt] at hq
      have hmem := List.get?_mem hq
      simp [List.mem_map] at hmem
    omega

theorem pipeline_stages_strictly_sequential_witness : (1 : Nat) < 2 :=
  pipeline_stages_strictly_sequential Nat Nat Nat 1 1 (fun x => x + 1) (fun x => x * 2)
    [7] [0, 0] [0, 0] 1 2 ⟨true, 0⟩ ⟨false, 0⟩ (by rfl) (by rfl)

/-- The data-model invariant of §3: content present iff Success, error
present iff Failed. -/
def RInvariant (r : RetrievalResult) : Prop :=
  (r.transcript.isSome ↔ r.status = RStatus.success) ∧
  (r.error.isSome ↔ r.status = RStatus.failed)

theorem fetchGeminiFrom_inv (title url : String) (out : Nat → GenOutcome) :
    ∀ (fuel attempt : Nat),
      RInvariant ((fetchGeminiFrom title url out attempt fuel).result) := by
  intro fuel
  induction fuel with
  | zero =>
    intro attempt
    simp [fetchGeminiFrom, geminiRateExhausted, RInvariant]
  | succ n ih =>
    intro attempt
    cases hout : out attempt with
    | ok t =>
      cases hx : extract_video_id url with
      | ok vid => simp [fetchGeminiFrom, hout, hx, RInvariant]
      | error e => simp [fetchGeminiFrom, hout, hx, RInvariant]
    | exn e => simp [fetchGeminiFrom, hout, RInvariant]
    | rateLimited =>
      rcases Nat.eq_zero_or_pos n with rfl | hn
      · simp [fetchGeminiFrom, hout, RInvariant, geminiRateExhausted]
      · have hne : n ≠ 0 := by omega
        simpa [fetchGeminiFrom, hout, hne] using ih (attempt + 1)

theorem fetchSyncFrom_inv (title url : String)
    (out : Nat → Except String (List String)) :
    ∀ (fuel attempt : Nat) (last : String),
      RInvariant ((fetchSyncFrom title url out attempt fuel last).result) := by
  intro fuel
  induction fuel with
  | zero =>
    intro attempt last
    simp [fetchSyncFrom, RInvariant]
  | succ n ih =>
    intro attempt last
    cases hx : extract_video_id url with
    | error e =>
      rcases Nat.eq_zero_or_pos n with rfl | hn
      · simp [fetchSyncFrom, hx, RInvariant]
      · have hne : n ≠ 0 := by omega
        simpa [fetchSyncFrom, hx, hne] using ih (attempt + 1) e
    | ok vid =>
      cases hout : out attempt with
      | error e =>
        rcases Nat.eq_zero_or_pos n with rfl | hn
        · simp [fetchSyncFrom, hx, hout, Except.map, RInvariant]
        · have hne : n ≠ 0 := by omega
          simpa [fetchSyncFrom, hx, hout, Except.map, hne] using ih (attempt + 1) e
      | ok segs => simp [fetchSyncFrom, hx, hout, Except.map, RInvariant]

/-- C6: every dict either transcript retriever can return satisfies the
invariant: the transcript field is present iff the status is Success,
and the error field is present iff the status is Failed — never both,
never neither. -/
theorem retrieval_result_field_invariant :
    ∀ (title url : String) (gout : Nat → GenOutcome)
      (sout : Nat → Except String (List String)),
      RInvariant ((fetch_transcript_with_gemini title url gout).result) ∧
      RInvariant ((fetch_transcript_for_video title url sout).result) :=
  fun title url gout sout =>
    ⟨fetchGeminiFrom_inv title url gout geminiMaxRetries 0,
     fetchSyncFrom_inv title url sout (syncMaxRetries + 1) 0 ""⟩

/-- C3 (amended): the Gemini retriever makes up to 3 attempts only for
rate-limit failures, sleeping `base_delay * 2 ^ attempt` (5s then 10s)
before retrying and returning a Failed rate-limit result after
exhaustion; a non-rate-limit failure returns a Failed result at once,
with the description of that failure and no sleep.  The synchronous retriever
of `Streamlit_yt.py` makes up to `max_retries + 1 = 4` attempts with a
fixed 2-second sleep after every failed non-final attempt, and after
exhaustion returns a Failed result naming the last failure. -/
theorem retriever_retry_policy :
    (∀ (title url t vid : String) (out : Nat → GenOutcome),
        out 0 = .rateLimited → out 1 = .rateLimited → out 2 = .ok t →
        extract_video_id url = .ok vid →
        fetch_transcript_with_gemini title url out
          = { result := { title := title, video_url := url, video_id := vid
                        , status := .success, transcript := some (replaceNL t)
                        , error := none }
            , sleeps := [5, 10] }) ∧
    (∀ (title url e : String) (out : Nat → GenOutcome),
        out 0 = .exn e →
        fetch_transcript_with_gemini title url out
          = { result := { title := title, video_url := url
                        , video_id := videoIdOrUnknown url
                        , status := .failed, transcript := none, error := some e }
            , sleeps := [] }) ∧
    (∀ (title url : String) (out : Nat → GenOutcome),
        out 0 = .rateLimited → out 1 = .rateLimited → out 2 = .rateLimited →
        fetch_transcript_with_gemini title url out
          = { result := geminiRateExhausted title url, sleeps := [5, 10] }) ∧
    (∀ (title url vid e0 e1 e2 e3 : String)
        (out : Nat → Except String (List String)),
        extract_video_id url = .ok vid →
        out 0 = .error e0 → out 1 = .error e1 → out 2 = .error e2 →
        out 3 = .error e3 →
        fetch_transcript_for_video title url out
          = { result := { title := title, video_url := url, video_id := "unknown"
                        , status := .failed, transcript := none
                        , error := some ("All attempts failed. Last error: " ++ e3) }
            , sleeps := [2, 2, 2] }) := by
  refine ⟨?_, ?_, ?_, ?_⟩
  · intro title url t vid out h0 h1 h2 hx
    simp [fetch_transcript_with_gemini, geminiMaxRetries, geminiBaseDelay,
      fetchGeminiFrom, h0, h1, h2, hx]
  · intro title url e out h0
    simp [fetch_transcript_with_gemini, geminiMaxRetries, fetchGeminiFrom, h0]
  · intro title url out h0 h1 h2
    simp [fetch_transcript_with_gemini, geminiMaxRetries, geminiBaseDelay,
      fetchGeminiFrom, h0, h1, h2]
  · intro title url vid e0 e1 e2 e3 out hx h0 h1 h2 h3
    simp [fetch_transcript_for_video, syncMaxRetries, fetchSyncFrom,
      hx, h0, h1, h2, h3, Except.map]

/-- Oracle: rate limits on the first two attempts, success afterwards. -/
def rlRlOk : Nat → GenOutcome := fun k =>
  match k with
  | 0 => .rateLimited
  | 1 => .rateLimited
  | _ => .ok "hello"

theorem retriever_retry_policy_witness :
    fetch_transcript_with_gemini "T" "https://youtu.be/abc" rlRlOk
      = { result := { title := "T", video_url := "https://youtu.be/abc"
                    , video_id := "abc", status := .success
                    , transcript := some (replaceNL "hello"), error := none }
        , sleeps := [5, 10] } :=
  retriever_retry_policy.1 "T" "https://youtu.be/abc" "hello" "abc" rlRlOk
    rfl rfl rfl (by rfl)

/-- Oracle: a non-rate-limit failure on the first attempt, success on any
later one. -/
def exnThenOk : Nat → GenOutcome := fun k =>
  if k = 0 then .exn "boom" else .ok "hello"

/-- C3 counterexample: on a non-rate-limit failure the Gemini retriever
does not retry after a fixed 2-second delay — it returns Failed at once
with no sleep at all, even though the next attempt would have
succeeded. -/
theorem gemini_no_fixed_delay_retry :
    (fetch_transcript_with_gemini "T" "https://youtu.be/abc" exnThenOk).result.status
        = RStatus.failed ∧
    (fetch_transcript_with_gemini "T" "https://youtu.be/abc" exnThenOk).result.error
        = some "boom" ∧
    (fetch_transcript_with_gemini "T" "https://youtu.be/abc" exnThenOk).sleeps = [] ∧
    exnThenOk 1 = .ok "hello" :=
  ⟨rfl, rfl, rfl, rfl⟩

/-- C4: the YouTube analyzer takes the content path iff the retrieval
status is Success and the transcript is present and non-empty, slicing
the content to at most 15,000 characters (exactly 15,000 when longer);
in every other case it takes the title-only inference path. -/
theorem analyzer_prompt_selection_and_truncation :
    (∀ (r : RetrievalResult) (t : String),
        r.status = RStatus.success → r.transcript = some t → t ≠ "" →
        buildPrompt r = .contentPrompt r.title (strTake 15000 t) ∧
        (strTake 15000 t).length = min 15000 t.length) ∧
    (∀ r : RetrievalResult,
        r.status = RStatus.failed ∨ r.transcript = none ∨ r.transcript = some "" →
        buildPrompt r = .titleOnly r.title) := by
  constructor
  · intro r t h1 h2 h3
    constructor
    · simp [buildPrompt, h1, h2, h3]
    · have h4 : (strTake 15000 t).length = (t.toList.take 15000).length := rfl
      have h5 : t.toList.length = t.length := rfl
      rw [h4, List.length_take, h5, inf_eq_min]
  · intro r h
    rcases h with h | h | h <;> simp [buildPrompt, h]

def c4Witness : RetrievalResult :=
  { title := "T", video_url := "u", video_id := "v", status := .success
  , transcript := some "abc", error := none }

theorem analyzer_prompt_selection_and_truncation_witness :
    buildPrompt c4Witness = .contentPrompt "T" (strTake 15000 "abc") ∧
    (strTake 15000 "abc").length = min 15000 ("abc" : String).length :=
  analyzer_prompt_selection_and_truncation.1 c4Witness "abc" rfl rfl (by decide)

/-- C5: on any transport or parse failure, both analyzers return the
fixed sentinel `AnalysisResult` — a well-formed object with
`context = "Error during analysis."` and `category = "Error"` — instead
of raising. -/
theorem analyzer_failure_returns_sentinel :
    ∀ (r : RetrievalResult) (item : ScrapedItem) (e : String),
      (analyze_transcript_with_openai r (.fail e)).2 = errorSentinel ∧
      (analyze_scraped_content item (.fail e)).2 = errorSentinel ∧
      errorSentinel.context = "Error during analysis." ∧
      errorSentinel.category = "Error" :=
  fun _ _ _ => ⟨rfl, rfl, rfl, rfl⟩

/-- C9: when the link matches none of the YouTube URL patterns, the
Gemini retriever returns a Failed dict even though the upstream
transcript call succeeded: the `ValueError` from `extract_video_id` on
the success path is caught by the generic per-item handler, so the
result carries the extraction error message and no transcript. -/
theorem gemini_invalid_url_fails_despite_upstream_success :
    ∀ (title url t e : String) (out : Nat → GenOutcome),
      out 0 = GenOutcome.ok t →
      extract_video_id url = .error e →
      (fetch_transcript_with_gemini title url out).result
        = { title := title, video_url := url, video_id := "unknown"
          , status := .failed, transcript := none, error := some e } := by
  intro title url t e out h0 hx
  simp [fetch_transcript_with_gemini, geminiMaxRetries, fetchGeminiFrom,
    h0, hx, videoIdOrUnknown]

theorem gemini_invalid_url_fails_despite_upstream_success_witness :
    (fetch_transcript_with_gemini "T" "not-a-url" (fun _ => GenOutcome.ok "hello")).result
      = { title := "T", video_url := "not-a-url", video_id := "unknown"
        , status := .failed, transcript := none
        , error := some (invalidUrlMsg "not-a-url") } :=
  gemini_invalid_url_fails_despite_upstream_success "T" "not-a-url" "hello"
    (invalidUrlMsg "not-a-url") (fun _ => .ok "hello") rfl (by rfl)

theorem length_filterMap_id (l : List (Option α)) :
    (l.filterMap id).length = l.countP Option.isSome := by
  induction l with
  | nil => rfl
  | cons a tl ih =>
    cases a <;> simp [List.filterMap_cons, List.countP_cons, ih]

/-- C2 (amended): the YouTube pipeline report keeps exactly one slot per
source item, in order, each holding the retrieval dict of that item and its
analysis, even when both failed; the Google pipeline filters out `None`
scrape results before analysis, so its report has exactly one entry per
successfully scraped query — failed queries are dropped. -/
theorem report_slot_accounting :
    (∀ (videos : List TrendItem) (gem : Nat → Nat → GenOutcome)
        (llm : Nat → LLMOutcome),
        (run_youtube_analysis_pipeline videos gem llm).length = videos.length) ∧
    (∀ (videos : List TrendItem) (gem : Nat → Nat → GenOutcome)
        (llm : Nat → LLMOutcome) (i : Nat) (v : TrendItem),
        videos.get? i = some v →
        (run_youtube_analysis_pipeline videos gem llm).get? i
          = some { retrieval :=
                     (fetch_transcript_with_gemini v.title v.link (gem i)).result
                 , llm_analysis :=
                     (analyze_transcript_with_openai
                       (fetch_transcript_with_gemini v.title v.link (gem i)).result
                       (llm i)).2 }) ∧
    (∀ (trends : List (List String)) (scr : Nat → SearchOutcome)
        (llm : Nat → LLMOutcome),
        (run_google_analysis_pipeline trends scr llm).length
          = ((generate_trend_queries trends).enum.map
               (fun p => search_and_scrape_task (scr p.1) p.2)).countP
              Option.isSome) := by
  refine ⟨?_, ?_, ?_⟩
  · intro videos gem llm
    simp [run_youtube_analysis_pipeline, List.length_zipWith, List.length_map,
      List.enum_length]
  · intro videos gem llm i v hv
    simp only [run_youtube_analysis_pipeline]
    rw [List.zipWith_get?]
    rw [List.get?_map, List.enum_get?, List.get?_map, List.enum_get?,
      List.get?_map, List.enum_get?, hv]
    rfl
  · intro trends scr llm
    simp only [run_google_analysis_pipeline]
    by_cases h1 : (generate_trend_queries trends).isEmpty
    · rw [if_pos h1]
      rw [List.isEmpty_iff.mp h1]
      rfl
    · rw [if_neg h1]
      set scraped := (generate_trend_queries trends).enum.map
        (fun p => search_and_scrape_task (scr p.1) p.2) with hscraped
      by_cases h2 : (scraped.filterMap id).isEmpty
      · rw [if_pos h2]
        have h3 : (scraped.filterMap id).length = 0 := by
          rw [List.isEmpty_iff.mp h2]; rfl
        rw [← length_filterMap_id, h3]
        rfl
      · rw [if_neg h2]
        rw [List.length_zipWith, List.length_map, List.enum_length,
          min_self, length_filterMap_id]

theorem report_slot_accounting_witness :
    (run_youtube_analysis_pipeline [{ title := "T", link := "not-a-url" }]
        (fun _ _ => GenOutcome.exn "boom") (fun _ => .fail "x")).get? 0
      = some { retrieval :=
                 (fetch_transcript_with_gemini "T" "not-a-url"
                   (fun _ => GenOutcome.exn "boom")).result
             , llm_analysis :=
                 (analyze_transcript_with_openai
                   (fetch_transcript_with_gemini "T" "not-a-url"
                     (fun _ => GenOutcome.exn "boom")).result
                   (.fail "x")).2 } :=
  report_slot_accounting.2.1 [{ title := "T", link := "not-a-url" }]
    (fun _ _ => GenOutcome.exn "boom") (fun _ => .fail "x") 0
    { title := "T", link := "not-a-url" } rfl

/-- Trends for which the scrape of the second query will fail. -/
def c2Trends : List (List String) := [["a"], ["b"]]

/-- Scrape oracle: the first query scrapes fine, the second raises. -/
def c2Scr : Nat → SearchOutcome := fun k =>
  if k = 0 then .ok [some "md"] else .exn "boom"

/-- C2 counterexample: in the Google pipeline a failed scrape returns
`None`, which is filtered out before analysis, so the final report has
1 entry for 2 source queries — the failed slot is dropped, not kept as
a failure object. -/
theorem google_pipeline_drops_failed_slot :
    (run_google_analysis_pipeline c2Trends c2Scr (fun _ => .fail "x")).length = 1 ∧
    (generate_trend_queries c2Trends).length = 2 :=
  ⟨rfl, rfl⟩

theorem searchCap_some_ne_nil (lit bad : List Char) :
    ∀ (s cap : List Char), searchCap lit bad s = some cap → cap ≠ [] := by
  intro s
  induction s with
  | nil => intro cap h; simp [searchCap] at h
  | cons c rest ih =>
    intro cap h
    simp only [searchCap] at h
    cases hd : dropLit lit (c :: rest) with
    | none =>
      simp only [hd] at h
      exact ih cap h
    | some rem =>
      simp only [hd] at h
      by_cases hc : rem.takeWhile (fun x => !(bad.contains x)) = []
      · rw [if_pos hc] at h
        exact ih cap h
      · rw [if_neg hc] at h
        injection h with h2
        subst h2
        exact hc

theorem anchoredCap_some_ne_nil (www : Bool) (lit bad s cap : List Char)
    (h : anchoredCap www lit bad s = some cap) : cap ≠ [] := by
  simp only [anchoredCap] at h
  cases hd : dropLit lit (if www then stripWww (stripScheme s) else stripScheme s) with
  | none => simp only [hd] at h; exact Option.noConfusion h
  | some rem =>
    simp only [hd] at h
    by_cases hc : rem.takeWhile (fun x => !(bad.contains x)) = []
    · rw [if_pos hc] at h; exact Option.noConfusion h
    · rw [if_neg hc] at h
      injection h with h2
      subst h2
      exact hc

theorem string_mk_ne_empty (l : List Char) (h : l ≠ []) : String.mk l ≠ "" := by
  intro he
  exact h (congrArg String.data he)

/-- C7 (amended): both extractors accept the three supported URL shapes
(canonical watch URL, short youtu.be link, embed URL) and never return a
silent empty id; on every non-matching URL they fail by raising — the
main-script variant with a descriptive error naming the invalid URL, the
`yt_transcript.py` variant with the fixed message
`"Invalid YouTube URL."` that does not name it. -/
theorem video_id_extraction_spec :
    (extract_video_id "https://www.youtube.com/watch?v=dQw4w9WgXcQ"
        = .ok "dQw4w9WgXcQ" ∧
     extract_video_id "https://youtu.be/dQw4w9WgXcQ" = .ok "dQw4w9WgXcQ" ∧
     extract_video_id "https://www.youtube.com/embed/dQw4w9WgXcQ"
        = .ok "dQw4w9WgXcQ" ∧
     YtTranscript.extract_video_id "https://www.youtube.com/watch?v=dQw4w9WgXcQ"
        = .ok "dQw4w9WgXcQ" ∧
     YtTranscript.extract_video_id "https://youtu.be/dQw4w9WgXcQ"
        = .ok "dQw4w9WgXcQ" ∧
     YtTranscript.extract_video_id "https://www.youtube.com/embed/dQw4w9WgXcQ"
        = .ok "dQw4w9WgXcQ") ∧
    (∀ (url msg : String), extract_video_id url = .error msg →
        msg = invalidUrlMsg url) ∧
    (∀ (url v : String), extract_video_id url = .ok v → v ≠ "") ∧
    (∀ (url msg : String), YtTranscript.extract_video_id url = .error msg →
        msg = "Invalid YouTube URL.") ∧
    (∀ (url v : String), YtTranscript.extract_video_id url = .ok v → v ≠ "") := by
  refine ⟨⟨by rfl, by rfl, by rfl, by rfl, by rfl, by rfl⟩, ?_, ?_, ?_, ?_⟩
  · intro url msg h
    simp only [extract_video_id] at h
    cases h1 : searchCap watchLit ['&'] url.toList with
    | some cap => simp only [h1] at h; exact Except.noConfusion h
    | none =>
      simp only [h1] at h
      cases h2 : searchCap shortLit ['?', '&'] url.toList with
      | some cap => simp only [h2] at h; exact Except.noConfusion h
      | none =>
        simp only [h2] at h
        cases h3 : searchCap embedLit ['?', '&'] url.toList with
        | some cap => simp only [h3] at h; exact Except.noConfusion h
        | none =>
          simp only [h3] at h
          injection h with h4
          exact h4.symm
  · intro url v h
    simp only [extract_video_id] at h
    cases h1 : searchCap watchLit ['&'] url.toList with
    | some cap =>
      simp only [h1] at h
      injection h with h4
      subst h4
      exact string_mk_ne_empty cap (searchCap_some_ne_nil _ _ _ cap h1)
    | none =>
      simp only [h1] at h
      cases h2 : searchCap shortLit ['?', '&'] url.toList with
      | some cap =>
        simp only [h2] at h
        injection h with h4
        subst h4
        exact string_mk_ne_empty cap (searchCap_some_ne_nil _ _ _ cap h2)
      | none =>
        simp only [h2] at h
        cases h3 : searchCap embedLit ['?', '&'] url.toList with
        | some cap =>
          simp only [h3] at h
          injection h with h4
          subst h4
          exact string_mk_ne_empty cap (searchCap_some_ne_nil _ _ _ cap h3)
        | none => simp only [h3] at h; exact Except.noConfusion h
  · intro url msg h
    simp only [YtTranscript.extract_video_id] at h
    cases h1 : anchoredCap true watchLit ['&'] url.toList with
    | some cap => simp only [h1] at h; exact Except.noConfusion h
    | none =>
      simp only [h1] at h
      cases h2 : anchoredCap false shortLit ['?', '&'] url.toList with
      | some cap => simp only [h2] at h; exact Except.noConfusion h
      | none =>
        simp only [h2] at h
        cases h3 : anchoredCap true embedLit ['?', '&'] url.toList with
        | some cap => simp only [h3] at h; exact Except.noConfusion h
        | none =>
          simp only [h3] at h
          injection h with h4
          exact h4.symm
  · intro url v h
    simp only [YtTranscript.extract_video_id] at h
    cases h1 : anchoredCap true watchLit ['&'] url.toList with
    | some cap =>
      simp only [h1] at h
      injection h with h4
      subst h4
      exact string_mk_ne_empty cap (anchoredCap_some_ne_nil _ _ _ _ cap h1)
    | none =>
      simp only [h1] at h
      cases h2 : anchoredCap false shortLit ['?', '&'] url.toList with
      | some cap =>
        simp only [h2] at h
        injection h with h4
        subst h4
        exact string_mk_ne_empty cap (anchoredCap_some_ne_nil _ _ _ _ cap h2)
      | none =>
        simp only [h2] at h
        cases h3 : anchoredCap true embedLit ['?', '&'] url.toList with
        | some cap =>
          simp only [h3] at h
          injection h with h4
          subst h4
          exact string_mk_ne_empty cap (anchoredCap_some_ne_nil _ _ _ _ cap h3)
        | none => simp only [h3] at h; exact Except.noConfusion h

theorem video_id_extraction_spec_witness : ("x" : String) ≠ "" :=
  video_id_extraction_spec.2.2.1 "https://youtu.be/x" "x" (by rfl)

/-- C7 counterexample: the `yt_transcript.py` extractor rejects a
non-matching URL with the fixed message `"Invalid YouTube URL."`, which
does not name (or even contain) the invalid URL. -/
theorem ytTranscript_error_does_not_name_url :
    YtTranscript.extract_video_id "not-a-url" = .error "Invalid YouTube URL." ∧
    hasSeg "not-a-url".toList "Invalid YouTube URL.".toList = false :=
  ⟨rfl, rfl⟩

theorem splitEqL_ne_nil : ∀ l : List Char, splitEqL l ≠ [] := by
  intro l
  cases l with
  | nil => simp [splitEqL]
  | cons c cs =>
    simp only [splitEqL]
    by_cases hc : c = '='
    · simp [hc]
    · rw [if_neg hc]
      cases h : splitEqL cs <;> simp

theorem splitEqL_head : ∀ l : List Char,
    (splitEqL l).getD 0 [] = l.takeWhile (fun c => c != '=') := by
  intro l
  induction l with
  | nil => rfl
  | cons c cs ih =>
    by_cases hc : c = '='
    · subst hc
      simp [splitEqL, List.takeWhile_cons]
    · simp only [splitEqL, if_neg hc]
      cases h : splitEqL cs with
      | nil => exact absurd h (splitEqL_ne_nil cs)
      | cons seg segs =>
        have hs : seg = cs.takeWhile (fun c => c != '=') := by
          simpa [h] using ih
        have hcb : (c != '=') = true := by simp [hc]
        simp [List.takeWhile_cons, hcb, hs]

theorem splitEqL_append (xs ys : List Char) (h : '=' ∉ xs) :
    splitEqL (xs ++ '=' :: ys) = xs :: splitEqL ys := by
  induction xs with
  | nil => simp [splitEqL]
  | cons c cs ih =>
    have hc : ¬ c = '=' := fun hcc => h (by rw [hcc]; exact List.mem_cons_self _ _)
    have hm : '=' ∉ cs := fun hmm => h (List.mem_cons_of_mem _ hmm)
    simp only [List.cons_append, splitEqL, if_neg hc, List.append_eq, ih hm]

theorem takeWhile_ne_append_of_mem (xs ys : List Char) (h : '=' ∈ xs) :
    (xs ++ ys).takeWhile (fun c => c != '=')
      = xs.takeWhile (fun c => c != '=') := by
  induction xs with
  | nil => cases h
  | cons c cs ih =>
    by_cases hc : c = '='
    · subst hc
      simp [List.takeWhile_cons]
    · have hm : '=' ∈ cs := by
        rcases List.mem_cons.mp h with h1 | h1
        · exact absurd h1.symm hc
        · exact h1
      have hcb : (c != '=') = true := by simp [hc]
      simp [List.takeWhile_cons, hcb, ih hm]

theorem takeWhile_ne_of_not_mem (xs : List Char) (h : '=' ∉ xs) :
    xs.takeWhile (fun c => c != '=') = xs := by
  induction xs with
  | nil => rfl
  | cons c cs ih =>
    have hc : ¬ c = '=' := fun hcc => h (by rw [hcc]; exact List.mem_cons_self _ _)
    have hm : '=' ∉ cs := fun hmm => h (List.mem_cons_of_mem _ hmm)
    have hcb : (c != '=') = true := by simp [hc]
    simp [List.takeWhile_cons, hcb, ih hm]

theorem stripQ_cons_sq (l : List Char) : stripQ (sqC :: l) = stripQ l := by
  simp [stripQ, List.dropWhile_cons]

theorem stripQ_append_sq (l : List Char) : stripQ (l ++ [sqC]) = stripQ l := by
  unfold stripQ
  rw [List.dropWhile_append]
  by_cases h : (l.dropWhile (fun c => c == sqC)).isEmpty
  · rw [if_pos h]
    have h2 : List.dropWhile (fun c => c == sqC) [sqC] = [] := by
      simp [List.dropWhile_cons]
    rw [h2, List.isEmpty_iff.mp h]
  · rw [if_neg h]
    rw [List.reverse_append]
    simp [List.dropWhile_cons]

/-- C10 (amended): parsing the generated single-quoted line `query=J` with
`split("=")[1].strip(chr(39))` recovers the prefix of the joined keyword
string `J` before its first `=` (all of `J` when it has none), with all
leading and trailing single-quote characters of that prefix removed; in
particular the round trip is exact precisely when `J` has no `=` and
quote-stripping leaves it unchanged (it neither starts nor ends with a
single quote). -/
theorem query_parse_roundtrip :
    (∀ J : List Char,
        parseActualQuery (queryLine (String.mk J))
          = String.mk (stripQ (J.takeWhile (fun c => c != '=')))) ∧
    (∀ J : List Char, '=' ∉ J → stripQ J = J →
        parseActualQuery (queryLine (String.mk J)) = String.mk J) := by
  have main : ∀ J : List Char,
      parseActualQuery (queryLine (String.mk J))
        = String.mk (stripQ (J.takeWhile (fun c => c != '='))) := by
    intro J
    have hq : (queryLine (String.mk J)).toList
        = "query".toList ++ '=' :: (sqC :: (J ++ [sqC])) := by
      show ("query=" ++ sqS ++ String.mk J ++ sqS).data = _
      rw [String.data_append, String.data_append, String.data_append]
      show ("query=".data ++ [sqC]) ++ J ++ [sqC] = _
      rw [List.append_assoc, List.append_assoc]
      rfl
    unfold parseActualQuery
    rw [hq]
    rw [splitEqL_append _ _ (by decide)]
    show String.mk (stripQ ((splitEqL (sqC :: (J ++ [sqC]))).getD 0 [])) = _
    rw [splitEqL_head]
    rw [List.takeWhile_cons]
    rw [if_pos (by decide : (sqC != '=') = true)]
    rw [stripQ_cons_sq]
    by_cases hm : '=' ∈ J
    · rw [takeWhile_ne_append_of_mem _ _ hm]
    · have ht : J.takeWhile (fun c => c != '=') = J := takeWhile_ne_of_not_mem J hm
      rw [List.takeWhile_append, if_pos (by rw [ht])]
      rw [(by decide : List.takeWhile (fun c => c != '=') [sqC] = [sqC])]
      rw [stripQ_append_sq, ht]
  exact ⟨main, fun J h1 h2 => by
    rw [main J, takeWhile_ne_of_not_mem J h1, h2]⟩

theorem query_parse_roundtrip_witness :
    parseActualQuery (queryLine "abc") = "abc" :=
  query_parse_roundtrip.2 "abc".toList (by decide) (by decide)

/-- C10 counterexample: the single keyword `chr(39) + "a"` contains no
`=`, yet parsing the generated query line yields `"a"`, not the joined
keyword string — `strip(chr(39))` also removes quote characters
belonging to the keyword itself. -/
theorem query_parse_strips_keyword_quotes :
    ((String.mk [sqC, 'a']).toList.contains '=') = false ∧
    generate_trend_queries [[String.mk [sqC, 'a']]]
      = [queryLine (String.mk [sqC, 'a'])] ∧
    parseActualQuery (queryLine (String.mk [sqC, 'a']))
      ≠ String.mk [sqC, 'a'] := by
  refine ⟨by decide, by rfl, by decide⟩
